import Mathlib

/-!
Verification of the sim_hardware repository: a simulated GPIO pin board
(src/sim_GPIO.py) and a simulated stepper motor (src/sim_motor.py).

Conventions of the shallow embedding:
- Python dicts are association lists kept in insertion order; assignment
  updates an existing key in place or appends a new binding (dSet), and
  subscript lookup returns an Option (dLookup), none standing for KeyError.
- Python integers are Int.  The percent operator of Python on ints with a
  positive modulus agrees with Int.emod; int(a / b) on ints agrees with
  Int.tdiv a b whenever the float division is exact, which holds on the
  bounded ranges the simulator works with.
- Degree values (Python floats) are modelled as exact rationals; the float
  operations the code uses on them (mod 360, products, division by 360,
  truncation by int) are computed exactly on numerator and denominator.
- Exceptions are modelled by an error component: stateful operations return
  a pair of Option Err and the state reached when the exception is raised,
  as Python leaves its module level state in place on an exception.
-/

/-- Kinds of Python exception raised by the simulated modules. -/
inductive Err
  | keyError
  | valueError
  | exception
  | nameError
  deriving DecidableEq

/-- Python dict lookup (subscript or get): first binding of the key. -/
def dLookup {κ α : Type} [DecidableEq κ] : List (κ × α) → κ → Option α
  | [], _ => none
  | (k, v) :: rest, key => if key = k then some v else dLookup rest key

/-- Python dict assignment: replace the binding in place if the key is
present, otherwise append a new binding at the end. -/
def dSet {κ α : Type} [DecidableEq κ] : List (κ × α) → κ → α → List (κ × α)
  | [], key, val => [(key, val)]
  | (k, v) :: rest, key, val =>
    if key = k then (k, val) :: rest else (k, v) :: dSet rest key val

/-- Python dict keys view, in insertion order. -/
def dKeys {κ α : Type} : List (κ × α) → List κ
  | [] => []
  | (k, _) :: rest => k :: dKeys rest

/-- Level constant GPIO.HIGH. -/
def HIGH : Bool := true

/-- Level constant GPIO.LOW. -/
def LOW : Bool := false

/-- Mode string GPIO.IN. -/
def IN : String := "in"

/-- Mode string GPIO.OUT. -/
def OUT : String := "out"

/-- Microstep mode table MSTEP_PIN_STATES of sim_motor.py: the (ms1, ms2)
levels select the resolution multiplier. -/
def MSTEP_PIN_STATES : Bool × Bool → Int
  | (false, false) => 1
  | (true, false) => 2
  | (false, true) => 4
  | (true, true) => 8

/-- Function _closestLoopMovement of sim_motor.py: on a closed loop of
size loopSize, the signed relative movement that reaches newPos from
currPos.  Python percent on a positive modulus is Int.emod. -/
def closestLoopMovement (currPos newPos loopSize : Int) : Int :=
  let c := currPos % loopSize
  let n := newPos % loopSize
  if c = n then 0
  else
    let upper := if n < c then n + loopSize else n
    let lower := if n < c then n else n - loopSize
    if c - lower < upper - c then lower - c else upper - c

/-- State of one vMotor of sim_motor.py.  The fields msteps, mstepMode,
gearRatio, dir and hasMoved carry the underscored attributes of the
Python object; the four pins of the PINS dict are separate fields, ms1
and ms2 being optional exactly as in the source.  The gear ratio is
annotated float in the source but every use in the repository is the
integer literal 1, so it is embedded as Int. -/
structure vMotor where
  msteps : Int
  mstepMode : Int
  gearRatio : Int
  dir : Int
  hasMoved : Bool
  stepPin : Int
  dirPin : Int
  ms1Pin : Option Int
  ms2Pin : Option Int
  stepsPerRev : Int
  deriving DecidableEq

/-- Python board.get(k) where k itself may be None (an unbound ms pin):
dict.get of None finds nothing because board keys are pin numbers. -/
def optGet (board : Int → Option Bool) : Option Int → Option Bool
  | none => none
  | some k => board k

/-- Method vMotor.updateState of sim_motor.py, with the board snapshot
threaded through so that the frame property on the snapshot is part of
the statement.  Returns none when a subscript of the board raises
KeyError (an unregistered step or dir pin), in which case the partial
update of the motor object is discarded by the model; no claim exercises
that path.  The final int((msteps * newMode) / mstepMode) of the source
truncates toward zero, which is Int.tdiv on the exact values. -/
def updateStateB (m : vMotor) (board : Int → Option Bool) :
    Option (vMotor × (Int → Option Bool)) :=
  match board m.dirPin with
  | none => none
  | some dirLevel =>
    match board m.stepPin with
    | none => none
    | some stepLevel =>
      let m1 := { m with dir := if dirLevel then -1 else 1 }
      let m2 := if stepLevel = false then { m1 with hasMoved := false } else m1
      let m3 :=
        if m2.hasMoved = false ∧ stepLevel = true then
          { m2 with
            msteps := (m2.msteps + m2.dir) %
              (m2.stepsPerRev * m2.mstepMode * m2.gearRatio),
            hasMoved := true }
        else m2
      let m4 :=
        match optGet board m3.ms1Pin, optGet board m3.ms2Pin with
        | some ms1, some ms2 =>
          let newMode := MSTEP_PIN_STATES (ms1, ms2)
          if newMode ≠ m3.mstepMode then
            let snapped := m3.msteps +
              closestLoopMovement m3.msteps
                (m3.msteps + (newMode - m3.msteps % newMode)) newMode
            { m3 with
              msteps := Int.tdiv (snapped * newMode) m3.mstepMode,
              mstepMode := newMode }
          else m3
        | _, _ => m3
      some (m4, board)

/-- Motor component of updateStateB: the view a caller of
vMotor.updateState sees. -/
def updateState (m : vMotor) (board : Int → Option Bool) : Option vMotor :=
  (updateStateB m board).map Prod.fst

/-- Method vMotor.mstepsToDegrees, on exact rationals. -/
def mstepsToDegrees (m : vMotor) (numMsteps : Int) : ℚ :=
  ((numMsteps : ℚ) * 360) / ((m.stepsPerRev : ℚ) * (m.mstepMode : ℚ))

/-- Property vMotor.degrees. -/
def vMotor.degrees (m : vMotor) : ℚ := mstepsToDegrees m m.msteps

example : closestLoopMovement 0 50 200 = 50 := by decide
example : closestLoopMovement 3 1 4 = 2 := by decide
example : closestLoopMovement 5 8 8 = 3 := by decide

/-- Helper: two integers whose difference is a multiple of L have the same
residue modulo L. -/
theorem emod_eq_of_sub_mul (a b L k : Int) (h : a - b = L * k) : a % L = b % L := by
  rw [Int.emod_eq_emod_iff_emod_sub_eq_zero, h]
  exact Int.mul_emod_right L k

/-- C5: for every integer currPos, newPos and loopSize > 0, the magnitude of
the displacement returned by closestLoopMovement is at most loopSize / 2,
stated without division as two times the absolute value being at most
loopSize. -/
theorem claim_C5_clm_magnitude (currPos newPos loopSize : Int)
    (hL : 0 < loopSize) :
    2 * |closestLoopMovement currPos newPos loopSize| ≤ loopSize := by
  have hbound : -loopSize ≤ 2 * closestLoopMovement currPos newPos loopSize ∧
      2 * closestLoopMovement currPos newPos loopSize ≤ loopSize := by
    simp only [closestLoopMovement]
    obtain ⟨c, hc0, hcL, hc⟩ :
        ∃ x, 0 ≤ x ∧ x < loopSize ∧ currPos % loopSize = x :=
      ⟨_, Int.emod_nonneg _ (by omega), Int.emod_lt_of_pos _ hL, rfl⟩
    obtain ⟨n, hn0, hnL, hn⟩ :
        ∃ x, 0 ≤ x ∧ x < loopSize ∧ newPos % loopSize = x :=
      ⟨_, Int.emod_nonneg _ (by omega), Int.emod_lt_of_pos _ hL, rfl⟩
    rw [hc, hn]
    split_ifs <;> omega
  have habs : |2 * closestLoopMovement currPos newPos loopSize| ≤ loopSize :=
    abs_le.mpr hbound
  calc 2 * |closestLoopMovement currPos newPos loopSize|
      = |2 * closestLoopMovement currPos newPos loopSize| := by
        rw [abs_mul]; norm_num
    _ ≤ loopSize := habs

/-- Witness for C5 at currPos 7, newPos 2, loopSize 10. -/
theorem claim_C5_witness :
    2 * |closestLoopMovement 7 2 10| ≤ 10 :=
  claim_C5_clm_magnitude 7 2 10 (by decide)

/-- C6: applying the returned displacement to currPos yields a position
congruent to newPos modulo loopSize, and the displacement is zero when
currPos and newPos are congruent. -/
theorem claim_C6_clm_congruence (currPos newPos loopSize : Int)
    (hL : 0 < loopSize) :
    (currPos + closestLoopMovement currPos newPos loopSize) % loopSize
        = newPos % loopSize ∧
    (currPos % loopSize = newPos % loopSize →
      closestLoopMovement currPos newPos loopSize = 0) := by
  have hp := Int.emod_add_ediv currPos loopSize
  have hq := Int.emod_add_ediv newPos loopSize
  constructor
  · simp only [closestLoopMovement]
    split_ifs with h1 h2 h3
    · exact emod_eq_of_sub_mul _ _ _ (currPos / loopSize - newPos / loopSize)
        (by linear_combination hq - hp + h1)
    · exact emod_eq_of_sub_mul _ _ _ (currPos / loopSize - newPos / loopSize)
        (by linear_combination hq - hp)
    · exact emod_eq_of_sub_mul _ _ _ (currPos / loopSize - newPos / loopSize + 1)
        (by linear_combination hq - hp)
    · exact emod_eq_of_sub_mul _ _ _ (currPos / loopSize - newPos / loopSize - 1)
        (by linear_combination hq - hp)
    · exact emod_eq_of_sub_mul _ _ _ (currPos / loopSize - newPos / loopSize)
        (by linear_combination hq - hp)
  · intro h
    simp [closestLoopMovement, h]

/-- Witness for C6 at currPos 7, newPos 2, loopSize 10. -/
theorem claim_C6_witness :
    (7 + closestLoopMovement 7 2 10) % 10 = 2 % 10 ∧
    ((7 : Int) % 10 = (2 : Int) % 10 → closestLoopMovement 7 2 10 = 0) :=
  claim_C6_clm_congruence 7 2 10 (by decide)

/-- C4 counterexample: at currPos 3, newPos 1, loopSize 4 the forward and
backward paths tie (both of magnitude 2 = loopSize / 2).  The candidate
requiring no wrap is the backward displacement -2, whose path stays inside
the domain (0 ≤ 3 - 2 and 3 - 2 < 4), while the code returns +2, whose
path crosses the 0/loopSize boundary (3 + 2 is not < 4).  This refutes the
claim that ties are broken toward the candidate requiring no wrap. -/
theorem claim_C4_counterexample :
    closestLoopMovement 3 1 4 = 2 ∧
    (2 : Int) * |(-2 : Int)| = 4 ∧ (2 : Int) * |(2 : Int)| = 4 ∧
    (3 + (-2 : Int)) % 4 = 1 % 4 ∧
    (0 ≤ (3 : Int) + (-2) ∧ (3 : Int) + (-2) < 4) ∧
    ¬ ((3 : Int) + 2 < 4) := by
  refine ⟨by decide, by decide, by decide, by decide, by decide, by decide⟩

/-- C4 amended: when the forward and backward wrap-around paths from
currPos to newPos tie (both of magnitude loopSize / 2, expressed as
2 * ((newPos - currPos) % loopSize) = loopSize), closestLoopMovement
returns the positive candidate +loopSize / 2 (the upper - currPos branch).
When newPos % loopSize is at least currPos % loopSize this is the
candidate requiring no wrap, but when newPos % loopSize is below
currPos % loopSize it is the wrapping path, so ties are broken toward the
positive displacement, not toward the candidate requiring no wrap. -/
theorem claim_C4_amended (currPos newPos loopSize : Int)
    (hL : 0 < loopSize)
    (htie : 2 * ((newPos - currPos) % loopSize) = loopSize) :
    2 * closestLoopMovement currPos newPos loopSize = loopSize ∧
    0 < closestLoopMovement currPos newPos loopSize := by
  obtain ⟨c, hc0, hcL, hc⟩ :
      ∃ x, 0 ≤ x ∧ x < loopSize ∧ currPos % loopSize = x :=
    ⟨_, Int.emod_nonneg _ (by omega), Int.emod_lt_of_pos _ hL, rfl⟩
  obtain ⟨n, hn0, hnL, hn⟩ :
      ∃ x, 0 ≤ x ∧ x < loopSize ∧ newPos % loopSize = x :=
    ⟨_, Int.emod_nonneg _ (by omega), Int.emod_lt_of_pos _ hL, rfl⟩
  have hsub : (newPos - currPos) % loopSize = (n - c) % loopSize := by
    rw [Int.sub_emod, hc, hn]
  have hcase : (n - c) % loopSize = if n < c then n - c + loopSize else n - c := by
    split_ifs with h
    · have hsh : (n - c + loopSize) % loopSize = (n - c) % loopSize := by
        have := Int.add_mul_emod_self_left (a := n - c) (b := loopSize) (c := 1)
        simpa using this
      rw [← hsh, Int.emod_eq_of_lt (by omega) (by omega)]
    · rw [Int.emod_eq_of_lt (by omega) (by omega)]
  rw [hsub, hcase] at htie
  simp only [closestLoopMovement]
  rw [hc, hn]
  split_ifs at htie ⊢ <;> omega

/-- Witness for the amended C4 at currPos 3, newPos 1, loopSize 4. -/
theorem claim_C4_amended_witness :
    2 * closestLoopMovement 3 1 4 = 4 ∧ 0 < closestLoopMovement 3 1 4 :=
  claim_C4_amended 3 1 4 (by decide) (by decide)

/-- C1: with the microstep pins unbound and the latch clear, a step line
held HIGH across two consecutive updateState calls with no intervening LOW
advances msteps exactly once, by the current direction; the second call
leaves msteps unchanged because hasMoved stays latched. -/
theorem claim_C1_step_latch (m : vMotor) (b1 b2 : Int → Option Bool)
    (d1 d2 : Bool)
    (hms1 : m.ms1Pin = none) (hms2 : m.ms2Pin = none)
    (hlatch : m.hasMoved = false)
    (hd1 : b1 m.dirPin = some d1) (hs1 : b1 m.stepPin = some HIGH)
    (hd2 : b2 m.dirPin = some d2) (hs2 : b2 m.stepPin = some HIGH) :
    ∃ m1 m2, updateState m b1 = some m1 ∧ updateState m1 b2 = some m2 ∧
      m1.msteps = (m.msteps + (if d1 then -1 else 1)) %
        (m.stepsPerRev * m.mstepMode * m.gearRatio) ∧
      m1.hasMoved = true ∧ m2.msteps = m1.msteps ∧ m2.hasMoved = true := by
  obtain ⟨ms, mm, gr, dr, hm, sp, dp, p1, p2, rev⟩ := m
  simp only at hms1 hms2 hlatch hd1 hs1 hd2 hs2 ⊢
  subst hms1; subst hms2; subst hlatch
  have e1 : updateState ⟨ms, mm, gr, dr, false, sp, dp, none, none, rev⟩ b1 =
      some ⟨(ms + (if d1 then -1 else 1)) % (rev * mm * gr), mm, gr,
        (if d1 then -1 else 1), true, sp, dp, none, none, rev⟩ := by
    simp [updateState, updateStateB, hd1, hs1, optGet, HIGH]
  have e2 : updateState ⟨(ms + (if d1 then -1 else 1)) % (rev * mm * gr), mm,
      gr, (if d1 then -1 else 1), true, sp, dp, none, none, rev⟩ b2 =
      some ⟨(ms + (if d1 then -1 else 1)) % (rev * mm * gr), mm, gr,
        (if d2 then -1 else 1), true, sp, dp, none, none, rev⟩ := by
    simp [updateState, updateStateB, hd2, hs2, optGet, HIGH]
  exact ⟨_, _, e1, e2, rfl, rfl, rfl, rfl⟩

/-- Concrete motor for the C1 witness. -/
def motorC1 : vMotor := ⟨0, 1, 1, 1, false, 1, 2, none, none, 200⟩

/-- Concrete board snapshot for the C1 witness: step line 1 HIGH, dir
line 2 LOW. -/
def boardC1 : Int → Option Bool :=
  fun c => if c = 1 then some true else if c = 2 then some false else none

/-- Witness for C1 on a concrete motor and board. -/
theorem claim_C1_witness :
    ∃ m1 m2, updateState motorC1 boardC1 = some m1 ∧
      updateState m1 boardC1 = some m2 ∧
      m1.msteps = (motorC1.msteps + (if false then -1 else 1)) %
        (motorC1.stepsPerRev * motorC1.mstepMode * motorC1.gearRatio) ∧
      m1.hasMoved = true ∧ m2.msteps = m1.msteps ∧ m2.hasMoved = true :=
  claim_C1_step_latch motorC1 boardC1 boardC1 false false rfl rfl rfl
    rfl rfl rfl rfl

/-- Helper: the recalibration of updateState first moves msteps to the
nearest multiple of the new mode 8, ties going to the larger multiple. -/
theorem snapToMode8 (x : Int) :
    x + closestLoopMovement x (x + (8 - x % 8)) 8
      = x - x % 8 + (if 4 ≤ x % 8 then 8 else 0) := by
  have hn : (x + (8 - x % 8)) % 8 = 0 := by omega
  simp only [closestLoopMovement, hn]
  split_ifs <;> omega

/-- Helper: cancellation of the common factor 8 and of stepsPerRev in the
degree readings before and after a mode change from 1 to 8. -/
theorem degrees_scale_iff (rev : Int) (hrev : 0 < rev) (X ms : Int) :
    (((X * 8 : Int)) : ℚ) * 360 / ((rev : ℚ) * ((8 : Int) : ℚ))
      = ((ms : ℚ) * 360) / ((rev : ℚ) * ((1 : Int) : ℚ)) ↔ X = ms := by
  have hrevQ : (0 : ℚ) < (rev : ℚ) := by exact_mod_cast hrev
  have hr0 : (rev : ℚ) ≠ 0 := ne_of_gt hrevQ
  rw [div_eq_div_iff (mul_ne_zero hr0 (by norm_num))
    (mul_ne_zero hr0 (by norm_num))]
  push_cast
  constructor
  · intro h
    have h2 : ((X : ℚ) - ms) * ((rev : ℚ) * 2880) = 0 := by linear_combination h
    rcases mul_eq_zero.mp h2 with h3 | h3
    · have h4 : (X : ℚ) = ms := by linarith
      exact_mod_cast h4
    · exact absurd h3 (mul_ne_zero hr0 (by norm_num))
  · intro h
    rw [h]
    ring

/-- C2 amended: when an observed update switches the microstep mode from 1
to 8 (both ms pins bound and HIGH, step line LOW so that the step branch
does not fire), msteps is first snapped to the nearest multiple of 8 by the
closest loop movement transform (ties toward the larger multiple), then
rescaled by 8.  Consequently degrees is preserved exactly when the starting
msteps is divisible by 8 and jumps otherwise, rather than being preserved
for every starting position. -/
theorem claim_C2_amended (m : vMotor) (b : Int → Option Bool) (d : Bool)
    (a1 a2 : Int)
    (hmode : m.mstepMode = 1) (hrev : 0 < m.stepsPerRev)
    (hms1 : m.ms1Pin = some a1) (hms2 : m.ms2Pin = some a2)
    (hb1 : b a1 = some HIGH) (hb2 : b a2 = some HIGH)
    (hd : b m.dirPin = some d) (hs : b m.stepPin = some LOW) :
    ∃ m8, updateState m b = some m8 ∧ m8.mstepMode = 8 ∧
      m8.msteps = 8 * (m.msteps - m.msteps % 8 +
        (if 4 ≤ m.msteps % 8 then 8 else 0)) ∧
      (m8.degrees = m.degrees ↔ m.msteps % 8 = 0) := by
  obtain ⟨ms, mm, gr, dr, hm, sp, dp, p1, p2, rev⟩ := m
  simp only at hmode hrev hms1 hms2 hd hs ⊢
  subst hmode; subst hms1; subst hms2
  have e1 : updateState ⟨ms, 1, gr, dr, hm, sp, dp, some a1, some a2, rev⟩ b =
      some ⟨(ms + closestLoopMovement ms (ms + (8 - ms % 8)) 8) * 8, 8, gr,
        (if d then -1 else 1), false, sp, dp, some a1, some a2, rev⟩ := by
    simp [updateState, updateStateB, hd, hs, hb1, hb2, optGet, HIGH, LOW,
      MSTEP_PIN_STATES, Int.tdiv_one]
  refine ⟨⟨(ms + closestLoopMovement ms (ms + (8 - ms % 8)) 8) * 8, 8, gr,
    (if d then -1 else 1), false, sp, dp, some a1, some a2, rev⟩,
    e1, rfl, ?_, ?_⟩
  · rw [snapToMode8 ms]
    ring
  · simp only [vMotor.degrees, mstepsToDegrees]
    rw [snapToMode8 ms]
    generalize hX : ms - ms % 8 + (if 4 ≤ ms % 8 then 8 else 0) = X
    exact (degrees_scale_iff rev hrev X ms).trans
      (by rw [← hX]; split_ifs <;> omega)

/-- Concrete motor for C2: position 5 microsteps, mode 1, pins
(step, dir, ms1, ms2) = (1, 2, 3, 4). -/
def motorC2 : vMotor := ⟨5, 1, 1, 1, false, 1, 2, some 3, some 4, 200⟩

/-- Concrete board for C2: step LOW, dir LOW, ms1 HIGH, ms2 HIGH. -/
def boardC2 : Int → Option Bool :=
  fun c => if c = 1 then some false else if c = 2 then some false
    else if c = 3 then some true else if c = 4 then some true else none

/-- Resulting motor for the C2 counterexample: msteps 64, mode 8. -/
def motorC2After : vMotor := ⟨64, 8, 1, 1, false, 1, 2, some 3, some 4, 200⟩

/-- C2 counterexample: switching mode 1 to 8 at msteps 5 yields msteps 64,
not the rescaling 40 the claim requires, and degrees jumps from 9 to 14.4,
so the modeled physical position is not preserved to within rounding. -/
theorem claim_C2_counterexample :
    updateState motorC2 boardC2 = some motorC2After ∧
    motorC2After.msteps ≠ 8 * motorC2.msteps ∧
    motorC2After.degrees ≠ motorC2.degrees := by
  refine ⟨by decide, by decide, ?_⟩
  simp only [vMotor.degrees, mstepsToDegrees, motorC2After, motorC2]
  norm_num

/-- Witness for the amended C2 at the concrete motor and board of the
counterexample. -/
theorem claim_C2_amended_witness :
    ∃ m8, updateState motorC2 boardC2 = some m8 ∧ m8.mstepMode = 8 ∧
      m8.msteps = 8 * (motorC2.msteps - motorC2.msteps % 8 +
        (if 4 ≤ motorC2.msteps % 8 then 8 else 0)) ∧
      (m8.degrees = motorC2.degrees ↔ motorC2.msteps % 8 = 0) :=
  claim_C2_amended motorC2 boardC2 false 3 4 rfl (by decide) rfl rfl
    (by decide) (by decide) (by decide) (by decide)

/-- C10: updateState never mutates the board snapshot it is given: the
method body only reads the mapping, so the board component it hands back
is the very mapping passed in, and every channel reads the same before
and after the call. -/
theorem claim_C10_board_frame (m : vMotor) (b : Int → Option Bool)
    (m1 : vMotor) (b1 : Int → Option Bool)
    (h : updateStateB m b = some (m1, b1)) :
    ∀ ch, b1 ch = b ch := by
  intro ch
  simp only [updateStateB] at h
  cases hd : b m.dirPin with
  | none => rw [hd] at h; cases h
  | some dirLevel =>
    cases hs : b m.stepPin with
    | none => rw [hd, hs] at h; cases h
    | some stepLevel =>
      rw [hd, hs] at h
      simp only [Option.some.injEq, Prod.mk.injEq] at h
      rw [← h.2]

/-- Witness for C10 on the concrete motor and board of C1. -/
theorem claim_C10_witness : boardC1 5 = boardC1 5 :=
  claim_C10_board_frame motorC1 boardC1
    ⟨1, 1, 1, 1, true, 1, 2, none, none, 200⟩ boardC1 rfl 5

/-- Module level mutable state of sim_GPIO.py: the dicts _board, _ioModes
and _pinToMotor.  Python stores motor object references in _pinToMotor;
the model keys the motor objects by an id in a separate store, registry
entries holding ids.  The writes field is a ghost trace of the successful
level writes performed by _setState, used to count issued pulses; it has
no effect on the behaviour. -/
structure Sim where
  board : List (Int × Bool)
  ioModes : List (Int × Option String)
  pinToMotor : List (Int × List Nat)
  motors : List (Nat × vMotor)
  writes : List (Int × Bool)
  deriving DecidableEq

/-- Function _setIoMode of sim_GPIO.py: raises on IN before mutating,
otherwise assigns the mode string.  The dict assignment never raises, so
an unregistered channel gains a mode entry. -/
def setIoMode (channel : Int) (ioMode : String) (sim : Sim) :
    Option Err × Sim :=
  if ioMode = IN then (some Err.exception, sim)
  else (none, { sim with ioModes := dSet sim.ioModes channel (some ioMode) })

/-- Broadcast loop at the end of _setState: every motor plugged into the
channel observes the full board dict, in registration order.  A motor id
missing from the store, or a motor whose step or dir pin is not a board
key, raises KeyError; the partially assigned dir of the Python error path
is dropped by the model and no claim exercises it. -/
def updateMotors : List Nat → Sim → Option Err × Sim
  | [], sim => (none, sim)
  | mid :: rest, sim =>
    match dLookup sim.motors mid with
    | none => (some Err.keyError, sim)
    | some m =>
      match updateState m (dLookup sim.board) with
      | none => (some Err.keyError, sim)
      | some m2 =>
        updateMotors rest { sim with motors := dSet sim.motors mid m2 }

/-- Function _setState of sim_GPIO.py: validate the ioMode of this one
channel (KeyError when unregistered, an exception when the mode was never
set or is IN), then store the level and notify the plugged motors. -/
def setState (channel : Int) (state : Bool) (sim : Sim) : Option Err × Sim :=
  match dLookup sim.ioModes channel with
  | none => (some Err.keyError, sim)
  | some none => (some Err.exception, sim)
  | some (some io) =>
    if io = IN then (some Err.exception, sim)
    else
      let sim2 := { sim with board := dSet sim.board channel state,
                             writes := sim.writes ++ [(channel, state)] }
      updateMotors ((dLookup sim2.pinToMotor channel).getD []) sim2

/-- Function _freeChannel of sim_GPIO.py: both statements are dict
assignments, which insert when the key is absent and never raise. -/
def freeChannel (channel : Int) (sim : Sim) : Sim :=
  { sim with board := dSet sim.board channel false,
             ioModes := dSet sim.ioModes channel none }

/-- Loop of cleanup over a channel sequence. -/
def freeChannels : List Int → Sim → Sim
  | [], sim => sim
  | c :: rest, sim => freeChannels rest (freeChannel c sim)

/-- Python argument that is either a single int channel or a list or
tuple of channels. -/
inductive ChanArg
  | single (c : Int)
  | many (cs : List Int)

/-- Python argument that is either a single bool level or a sequence. -/
inductive LevelArg
  | single (s : Bool)
  | many (ss : List Bool)

/-- Python argument that is either a single mode string or a sequence. -/
inductive ModeArg
  | single (io : String)
  | many (ios : List String)

/-- Element loop of the sequence branch of output: each zipped pair goes
through _setState, and an exception propagates leaving the state reached
so far. -/
def setStates : List (Int × Bool) → Sim → Option Err × Sim
  | [], sim => (none, sim)
  | (c, s) :: rest, sim =>
    match setState c s sim with
    | (some e, sim2) => (some e, sim2)
    | (none, sim2) => setStates rest sim2

/-- Function output of sim_GPIO.py: a single bool is broadcast over the
channel sequence, mismatched sequence lengths raise ValueError before any
mutation, and other shape mismatches raise ValueError. -/
def output : ChanArg → LevelArg → Sim → Option Err × Sim
  | ChanArg.many cs, LevelArg.many ss, sim =>
    if cs.length ≠ ss.length then (some Err.valueError, sim)
    else setStates (cs.zip ss) sim
  | ChanArg.many cs, LevelArg.single s, sim =>
    setStates (cs.zip (List.replicate cs.length s)) sim
  | ChanArg.single c, LevelArg.single s, sim => setState c s sim
  | ChanArg.single _, LevelArg.many _, sim => (some Err.valueError, sim)

/-- Element loop of the sequence branch of setup. -/
def setIoModes : List (Int × String) → Sim → Option Err × Sim
  | [], sim => (none, sim)
  | (c, io) :: rest, sim =>
    match setIoMode c io sim with
    | (some e, sim2) => (some e, sim2)
    | (none, sim2) => setIoModes rest sim2

/-- Function setup of sim_GPIO.py, with the same call shapes as output. -/
def setup : ChanArg → ModeArg → Sim → Option Err × Sim
  | ChanArg.many cs, ModeArg.many ios, sim =>
    if cs.length ≠ ios.length then (some Err.valueError, sim)
    else setIoModes (cs.zip ios) sim
  | ChanArg.many cs, ModeArg.single io, sim =>
    setIoModes (cs.zip (List.replicate cs.length io)) sim
  | ChanArg.single c, ModeArg.single io, sim => setIoMode c io sim
  | ChanArg.single _, ModeArg.many _, sim => (some Err.valueError, sim)

/-- Function cleanup of sim_GPIO.py: with no argument every board key is
freed; a sequence or single channel is freed elementwise.  No branch can
raise: _freeChannel only performs dict assignments. -/
def cleanup : Option ChanArg → Sim → Sim
  | none, sim => freeChannels (dKeys sim.board) sim
  | some (ChanArg.many cs), sim => freeChannels cs sim
  | some (ChanArg.single c), sim => freeChannel c sim

/-- Function _plugIn of sim_GPIO.py: KeyError on an unregistered channel,
and membership is checked before appending, so re-registration is a
no-op. -/
def plugIn (mid : Nat) (channel : Int) (sim : Sim) : Option Err × Sim :=
  match dLookup sim.pinToMotor channel with
  | none => (some Err.keyError, sim)
  | some mlist =>
    if mid ∈ mlist then (none, sim)
    else (none, { sim with
      pinToMotor := dSet sim.pinToMotor channel (mlist ++ [mid]) })

/-- Loop of the sequence branch of vPlugIn. -/
def plugIns (mid : Nat) : List Int → Sim → Option Err × Sim
  | [], sim => (none, sim)
  | c :: rest, sim =>
    match plugIn mid c sim with
    | (some e, sim2) => (some e, sim2)
    | (none, sim2) => plugIns mid rest sim2

/-- Function vPlugIn of sim_GPIO.py.  The sequence branch plugs the motor
into every listed channel.  The single int branch of the source calls
_plugIn(motor, c) where c is the loop variable of the sequence branch,
unbound on this path, so Python raises UnboundLocalError (a NameError
subclass) before anything is plugged in; the try block only converts
KeyError, so the error escapes with the state untouched. -/
def vPlugIn (mid : Nat) : ChanArg → Sim → Option Err × Sim
  | ChanArg.many cs, sim => plugIns mid cs sim
  | ChanArg.single _, sim => (some Err.nameError, sim)

/-- Board for C7: channel 1 registered with mode OUT, channel 2 registered
with its mode never set. -/
def simC7 : Sim :=
  ⟨[(1, false), (2, false)], [(1, some OUT), (2, none)],
   [(1, []), (2, [])], [], []⟩

/-- State after the first element of the C7 batch has been applied. -/
def simC7after : Sim :=
  ⟨[(1, true), (2, false)], [(1, some OUT), (2, none)],
   [(1, []), (2, [])], [], [(1, true)]⟩

/-- C7 counterexample: the batch output([1, 2], HIGH-HIGH) on simC7 raises
on the second element (mode never set), yet the write to channel 1 from
the first element persists, so the call does not leave the board state as
it was: validation is per element, not before any mutation. -/
theorem claim_C7_counterexample :
    (output (ChanArg.many [1, 2]) (LevelArg.many [true, true]) simC7).1
      = some Err.exception ∧
    (output (ChanArg.many [1, 2]) (LevelArg.many [true, true]) simC7).2.board
      ≠ simC7.board ∧
    dLookup (output (ChanArg.many [1, 2]) (LevelArg.many [true, true])
      simC7).2.board 1 = some true := by
  refine ⟨by decide, by decide, by decide⟩

/-- C7 amended: in a batch output or setup call, each element is
validated immediately before its own mutation, not before the batch.
For output, a failing element (unregistered channel, mode never set, or
mode IN) raises at that element and the final state is exactly the state
after the successful prefix: the offending line is untouched and the rest
of the batch is not applied, but the prefix mutations persist.  For
setup, the only failing element is a mode IN, which aborts the same way
(prefix applied, offending element and rest not); an unregistered channel
never fails setup, because the dict assignment of _setIoMode creates the
mode entry.  In both calls only the sequence-length check happens before
any mutation, raising ValueError with the state unchanged. -/
theorem claim_C7_amended :
    (∀ (ps1 : List (Int × Bool)) (sim sim1 : Sim) (ps2 : List (Int × Bool))
      (c : Int) (s : Bool),
      setStates ps1 sim = (none, sim1) →
      (dLookup sim1.ioModes c = none ∨ dLookup sim1.ioModes c = some none ∨
        dLookup sim1.ioModes c = some (some IN)) →
      ∃ e, setStates (ps1 ++ (c, s) :: ps2) sim = (some e, sim1)) ∧
    (∀ (qs1 : List (Int × String)) (sim sim1 : Sim)
      (qs2 : List (Int × String)) (c : Int),
      setIoModes qs1 sim = (none, sim1) →
      setIoModes (qs1 ++ (c, IN) :: qs2) sim = (some Err.exception, sim1)) ∧
    (∀ (c : Int) (io : String) (sim : Sim), io ≠ IN →
      (setIoMode c io sim).1 = none) ∧
    (∀ (cs : List Int) (ss : List Bool) (sim : Sim),
      cs.length ≠ ss.length →
      output (ChanArg.many cs) (LevelArg.many ss) sim
        = (some Err.valueError, sim)) ∧
    (∀ (cs : List Int) (ios : List String) (sim : Sim),
      cs.length ≠ ios.length →
      setup (ChanArg.many cs) (ModeArg.many ios) sim
        = (some Err.valueError, sim)) := by
  refine ⟨?_, ?_, ?_, ?_, ?_⟩
  · intro ps1 sim sim1 ps2 c s hpre hbad
    induction ps1 generalizing sim with
    | nil =>
      obtain rfl : sim = sim1 := by
        simpa [setStates] using hpre
      rcases hbad with h | h | h
      · exact ⟨Err.keyError, by simp [setStates, setState, h]⟩
      · exact ⟨Err.exception, by simp [setStates, setState, h]⟩
      · exact ⟨Err.exception, by simp [setStates, setState, h]⟩
    | cons p rest ih =>
      obtain ⟨cp, sp⟩ := p
      rw [List.cons_append]
      simp only [setStates] at hpre ⊢
      cases hcs : setState cp sp sim with
      | mk eopt sim2 =>
        rw [hcs] at hpre
        cases eopt with
        | some e => simp at hpre
        | none => exact ih sim2 hpre
  · intro qs1 sim sim1 qs2 c hpre
    induction qs1 generalizing sim with
    | nil =>
      obtain rfl : sim = sim1 := by
        simpa [setIoModes] using hpre
      simp [setIoModes, setIoMode]
    | cons q rest ih =>
      obtain ⟨cq, ioq⟩ := q
      rw [List.cons_append]
      simp only [setIoModes] at hpre ⊢
      cases hcs : setIoMode cq ioq sim with
      | mk eopt sim2 =>
        rw [hcs] at hpre
        cases eopt with
        | some e => simp at hpre
        | none => exact ih sim2 hpre
  · intro c io sim h
    simp [setIoMode, h]
  · intro cs ss sim h
    simp [output, h]
  · intro cs ios sim h
    simp [setup, h]

/-- Witness for the amended C7 on the concrete board simC7, one concrete
instance per conjunct: the output batch aborting on the unset mode of
line 2 with the write to line 1 kept, the setup batch aborting on a mode
IN element with the prefix kept, setup succeeding on a channel regardless
of registration, and both length checks raising with the state
unchanged. -/
theorem claim_C7_amended_witness :
    (∃ e, setStates ([(1, true)] ++ (2, true) :: []) simC7
      = (some e, simC7after)) ∧
    setIoModes ([(1, OUT)] ++ (2, IN) :: []) simC7
      = (some Err.exception, simC7) ∧
    (setIoMode 99 OUT simC7).1 = none ∧
    output (ChanArg.many [1, 2]) (LevelArg.many [true]) simC7
      = (some Err.valueError, simC7) ∧
    setup (ChanArg.many [1, 2]) (ModeArg.many [OUT]) simC7
      = (some Err.valueError, simC7) :=
  ⟨claim_C7_amended.1 [(1, true)] simC7 simC7after [] 2 true (by decide)
      (Or.inr (Or.inl (by decide))),
   claim_C7_amended.2.1 [(1, OUT)] simC7 simC7 [] 2 (by decide),
   claim_C7_amended.2.2.1 99 OUT simC7 (by decide),
   claim_C7_amended.2.2.2.1 [1, 2] [true] simC7 (by decide),
   claim_C7_amended.2.2.2.2 [1, 2] [OUT] simC7 (by decide)⟩

/-- Board for C8: channel 7 registered, one motor with id 0 in the
store. -/
def simC8 : Sim := ⟨[(7, false)], [(7, none)], [(7, [])], [(0, motorC1)], []⟩

/-- C8: calling vPlugIn with a single int channel always raises the
unbound local error of the source (the int branch passes the loop
variable c of the sequence branch instead of channel), registering
nothing, while the sequence branch with the same channel registers the
motor as intended.  This exhibits the code bug behind the claim. -/
theorem claim_C8_single_int_bug :
    vPlugIn 0 (ChanArg.single 7) simC8 = (some Err.nameError, simC8) ∧
    (vPlugIn 0 (ChanArg.many [7]) simC8).1 = none ∧
    dLookup (vPlugIn 0 (ChanArg.many [7]) simC8).2.pinToMotor 7
      = some [0] := by
  refine ⟨by decide, by decide, by decide⟩

/-- Lookup after a dict assignment: the assigned key reads the new value,
every other key is unaffected. -/
theorem dLookup_dSet {κ α : Type} [DecidableEq κ] (d : List (κ × α))
    (k k2 : κ) (v : α) :
    dLookup (dSet d k v) k2 = if k2 = k then some v else dLookup d k2 := by
  induction d with
  | nil => simp [dSet, dLookup]
  | cons p rest ih =>
    obtain ⟨pk, pv⟩ := p
    by_cases h : k = pk
    · subst h
      simp only [dSet, if_pos rfl, dLookup]
      split_ifs <;> rfl
    · simp only [dSet, if_neg h, dLookup]
      rw [ih]
      split_ifs <;> simp_all

/-- Frame property of the cleanup loop: channels not in the freed list
keep their board and mode entries. -/
theorem freeChannels_frame (cs : List Int) (sim : Sim) (c : Int)
    (hc : c ∉ cs) :
    dLookup (freeChannels cs sim).board c = dLookup sim.board c ∧
    dLookup (freeChannels cs sim).ioModes c = dLookup sim.ioModes c := by
  induction cs generalizing sim with
  | nil => exact ⟨rfl, rfl⟩
  | cons c2 rest ih =>
    have hne : c ≠ c2 := fun h => hc (h ▸ List.mem_cons_self c2 rest)
    have hrest : c ∉ rest := fun h => hc (List.mem_cons_of_mem c2 h)
    rw [freeChannels]
    refine ⟨?_, ?_⟩
    · rw [(ih (freeChannel c2 sim) hrest).1, freeChannel, dLookup_dSet,
        if_neg hne]
    · rw [(ih (freeChannel c2 sim) hrest).2, freeChannel, dLookup_dSet,
        if_neg hne]

/-- C9 amended: cleanup over a channel sequence cannot raise (both dict
assignments of _freeChannel insert silently), and every channel of the
sequence ends with level LOW and mode unset.  Registered channels are
reset as claimed; unknown channels are not skipped but created in that
reset state, so unknown ids never prevent the others from being
released. -/
theorem claim_C9_amended (cs : List Int) (sim : Sim) (c : Int)
    (hc : c ∈ cs) :
    dLookup (cleanup (some (ChanArg.many cs)) sim).board c = some false ∧
    dLookup (cleanup (some (ChanArg.many cs)) sim).ioModes c
      = some none := by
  show dLookup (freeChannels cs sim).board c = some false ∧
    dLookup (freeChannels cs sim).ioModes c = some none
  induction cs generalizing sim with
  | nil => cases hc
  | cons c2 rest ih =>
    rw [freeChannels]
    by_cases hcr : c ∈ rest
    · exact ih (freeChannel c2 sim) hcr
    · have hcc : c = c2 := by
        rcases List.mem_cons.mp hc with h | h
        · exact h
        · exact absurd h hcr
      subst hcc
      have hframe := freeChannels_frame rest (freeChannel c sim) c hcr
      refine ⟨?_, ?_⟩
      · rw [hframe.1, freeChannel, dLookup_dSet, if_pos rfl]
      · rw [hframe.2, freeChannel, dLookup_dSet, if_pos rfl]

/-- Board for C9: only channel 1 is registered. -/
def simC9 : Sim := ⟨[(1, true)], [(1, some OUT)], [(1, [])], [], []⟩

/-- C9 counterexample: cleanup([99, 1]) on a board that does not know
channel 99 does not skip it: afterwards 99 has a board entry (level LOW)
and a mode entry (unset), which it did not have before, so the unknown id
is created rather than skipped.  Channel 1 is still reset. -/
theorem claim_C9_counterexample :
    dLookup simC9.board 99 = none ∧
    dLookup (cleanup (some (ChanArg.many [99, 1])) simC9).board 99
      = some false ∧
    dLookup (cleanup (some (ChanArg.many [99, 1])) simC9).ioModes 99
      = some none ∧
    dLookup (cleanup (some (ChanArg.many [99, 1])) simC9).board 1
      = some false := by
  refine ⟨by decide, by decide, by decide, by decide⟩

/-- Witness for the amended C9 on the concrete board simC9. -/
theorem claim_C9_amended_witness :
    dLookup (cleanup (some (ChanArg.many [99, 1])) simC9).board 1
      = some false ∧
    dLookup (cleanup (some (ChanArg.many [99, 1])) simC9).ioModes 1
      = some none :=
  claim_C9_amended [99, 1] simC9 1 (by decide)

/-- Method vMotor.degreesToMsteps: int(deg * gearRatio * stepsPerRev *
mstepMode / 360) when useGearOut, else without the gear ratio.  On the
exact rational deg = num / den the quotient is (num * factors) / (den *
360) and the int conversion truncates toward zero, which is Int.tdiv. -/
def degreesToMsteps (m : vMotor) (deg : ℚ) (useGearOut : Bool) : Int :=
  if useGearOut then
    Int.tdiv (deg.num * m.gearRatio * m.stepsPerRev * m.mstepMode)
      ((deg.den : Int) * 360)
  else
    Int.tdiv (deg.num * m.stepsPerRev * m.mstepMode) ((deg.den : Int) * 360)

/-- Python float mod at the top of rotate: targDeg % 360 equals
targDeg - 360 * floor(targDeg / 360), computed exactly on the rational;
the floor of num / (den * 360) is the floor division Int.fdiv. -/
def degMod360 (deg : ℚ) : ℚ :=
  mkRat (deg.num - 360 * Int.fdiv deg.num ((deg.den : Int) * 360)
    * (deg.den : Int)) deg.den

/-- Limit test of the rotation loop in rotate.  The two disjuncts of the
source condition are mutually exclusive on isCCW, so the condition is
split on isCCW first; a missing limit is limitless in that direction. -/
def limitOk (self : vMotor) (isCCW : Bool) (ccLimit cwLimit : Option ℚ)
    (useGearOut : Bool) : Bool :=
  if isCCW then
    match ccLimit with
    | none => true
    | some l =>
      decide (¬ (self.msteps - 1 ≤ degreesToMsteps self l useGearOut))
  else
    match cwLimit with
    | none => true
    | some l =>
      decide (¬ (self.msteps + 1 ≥ degreesToMsteps self l useGearOut))

/-- Pulse loop of rotate: for each remaining pulse, re-read the motor
object, check the limit in the travel direction, then drive the step line
HIGH and back LOW through output, each write broadcasting to the plugged
motors (including this motor itself when it is registered on its own step
line).  Hitting a limit returns false with the remaining pulses
undelivered; the sleep calls between edges only pace the simulation and
have no modelled effect. -/
def pulseLoop (mid : Nat) (isCCW : Bool) (ccLimit cwLimit : Option ℚ)
    (useGearOut : Bool) : Nat → Sim → Option Err × Sim × Bool
  | 0, sim => (none, sim, true)
  | Nat.succ k, sim =>
    match dLookup sim.motors mid with
    | none => (some Err.keyError, sim, false)
    | some self =>
      if limitOk self isCCW ccLimit cwLimit useGearOut then
        match output (ChanArg.single self.stepPin) (LevelArg.single HIGH)
            sim with
        | (some e, sim2) => (some e, sim2, false)
        | (none, sim2) =>
          match output (ChanArg.single self.stepPin) (LevelArg.single LOW)
              sim2 with
          | (some e, sim3) => (some e, sim3, false)
          | (none, sim3) =>
            pulseLoop mid isCCW ccLimit cwLimit useGearOut k sim3
      else (none, sim, false)

/-- Method vMotor.rotate of sim_motor.py.  The motor is the entry mid of
the motor store, mirroring the self reference Python shares between the
caller and the registry.  The result carries the propagated exception (if
any), the final module state, and the bool return value of the method. -/
def rotate (mid : Nat) (targDeg : ℚ) (ccLimit cwLimit : Option ℚ)
    (useGearOut : Bool) (sim : Sim) : Option Err × Sim × Bool :=
  match dLookup sim.motors mid with
  | none => (some Err.keyError, sim, false)
  | some self =>
    let relMsteps := closestLoopMovement self.msteps
      (degreesToMsteps self (degMod360 targDeg) useGearOut)
      (self.stepsPerRev * self.mstepMode * self.gearRatio)
    if relMsteps = 0 then (none, sim, false)
    else
      let isCCW := decide (relMsteps < 0)
      match output (ChanArg.single self.dirPin) (LevelArg.single isCCW)
          sim with
      | (some e, sim2) => (some e, sim2, false)
      | (none, sim2) =>
        pulseLoop mid isCCW ccLimit cwLimit useGearOut relMsteps.natAbs sim2

/-- Motor for C3: position 0, mode 1, gear ratio 1, 200 steps per
revolution, step pin 1, dir pin 2, no microstep pins. -/
def motorC3 : vMotor := ⟨0, 1, 1, 1, false, 1, 2, none, none, 200⟩

/-- Board for C3: lines 1 (step) and 2 (dir) registered with mode OUT and
level LOW, and the motor plugged into both of its own lines. -/
def simC3 : Sim :=
  ⟨[(1, false), (2, false)], [(1, some OUT), (2, some OUT)],
   [(1, [0]), (2, [0])], [(0, motorC3)], []⟩

set_option maxRecDepth 20000 in
/-- C3: rotate(90) on the C3 motor sets the direction line to the
clockwise level LOW, issues exactly 50 HIGH-then-LOW pulses on the step
line (the ghost write trace is the dir write followed by 50 pulse pairs),
returns true, and leaves the motor at 50 microsteps. -/
theorem claim_C3_rotate90 :
    (rotate 0 90 none none true simC3).1 = none ∧
    (rotate 0 90 none none true simC3).2.2 = true ∧
    (dLookup (rotate 0 90 none none true simC3).2.1.motors 0).map
      vMotor.msteps = some 50 ∧
    dLookup (rotate 0 90 none none true simC3).2.1.board 2 = some LOW ∧
    (rotate 0 90 none none true simC3).2.1.writes =
      (2, LOW) :: (List.replicate 50 [(1, HIGH), (1, LOW)]).flatten := by
  refine ⟨by decide, by decide, by decide, by decide, by decide⟩
